import Mathlib

/-!
Shallow embedding of `src/main.py` (SMK Billedfinder API).

Conventions of the embedding:
* Python floats are modelled as exact rationals (`ℚ`).  The only float
  constants in the program are 0.5, 0.3 and 0.2 and their partial sums;
  every comparison the program performs on them (against each other,
  against 1 and against 80) has the same outcome under IEEE doubles and
  under exact rational arithmetic, so the model is observationally
  faithful.
* Python `str.lower()` is modelled by mapping `Char.toLower` over the
  characters (faithful on the ASCII data the program handles).
* Python `needle in haystack` on strings is modelled by `pyIn`.
* `rapidfuzz.fuzz.ratio` is the normalized Indel similarity:
  `100 * (2 * LCS(s1, s2)) / (|s1| + |s2|)` (and 100 when both strings
  are empty); `process.extractOne(query, choices, scorer=fuzz.ratio)`
  returns the best-scoring choice, or `None` when `choices` is empty
  (current rapidfuzz applies no preprocessing by default).
* The two enrichment attribute names of the source are written in Tamil
  and Georgian scripts, which Lean identifiers do not admit; they are
  rendered as `artist_name` (for the artist-name attribute) and
  `desc_attr` (for the description attribute).
* The external HTTP world is an input of the model: the catalog response
  is a `List SMKItem` argument, and the per-id enrichment responses are a
  function `String → EnrichmentData` (resp. a `FetchOutcome` for the
  error-handling analysis of `fetch_enrichment_data`).
-/

namespace SMK

/-- Python `str.lower()` (ASCII-faithful). -/
def pyLower (s : String) : String := ⟨s.data.map Char.toLower⟩

/-- Does the second list start with the first one? -/
def strStarts : List Char → List Char → Bool
  | [], _ => true
  | _ :: _, [] => false
  | n :: ns, h :: hs => n == h && strStarts ns hs

/-- Does the second list contain the first as a contiguous sublist? -/
def strHasSub (needle : List Char) : List Char → Bool
  | [] => needle.isEmpty
  | h :: t => strStarts needle (h :: t) || strHasSub needle t

/-- Python string containment: `needle in haystack`. -/
def pyIn (needle haystack : String) : Bool :=
  strHasSub needle.data haystack.data

/-- Helper for `lcsLen`: length of a longest common subsequence of
`a :: as` and the second argument, where `f` computes the LCS length of
`as` against any list.  Structured this way so that the recursion is
structural (hence kernel-computable). -/
def lcsAux (a : Char) (f : List Char → Nat) : List Char → Nat
  | [] => 0
  | b :: bs => if a == b then 1 + f bs else max (lcsAux a f bs) (f (b :: bs))

/-- Length of a longest common subsequence of two character lists. -/
def lcsLen : List Char → List Char → Nat
  | [], _ => 0
  | a :: as, ys => lcsAux a (lcsLen as) ys

/-- `rapidfuzz.fuzz.ratio`: normalized Indel similarity on a 0–100 scale,
`100 * (1 - indel_distance / (|s1| + |s2|)) = 200 * LCS / (|s1| + |s2|)`,
and 100 when both strings are empty. -/
def fuzz_ratio (s1 s2 : String) : ℚ :=
  let n := s1.length + s2.length
  if n = 0 then 100 else (200 * lcsLen s1.data s2.data : ℚ) / n

/-- Score of `rapidfuzz.process.extractOne(query, titles, scorer=fuzz.ratio)`:
the best ratio over the choices, `none` when the choice list is empty
(in which case the Python call returns `None`). -/
def bestRatio (query : String) (titles : List String) : Option ℚ :=
  match titles with
  | [] => none
  | t :: ts => some ((ts.map (fuzz_ratio query)).foldl max (fuzz_ratio query t))

/-- `SMKItem` (src/main.py, lines 20–25): a catalog record. -/
structure SMKItem where
  object_number : String
  titles : List String
  creator : String
  image_thumbnail : Option String
  description : Option String
  deriving DecidableEq

/-- `EnrichmentData` (src/main.py, lines 28–31).  `artist_name` stands for
the Tamil-script attribute and `desc_attr` for the Georgian-script
description attribute of the source. -/
structure EnrichmentData where
  artist_name : Option (List String)
  desc_attr : Option (List String)
  deriving DecidableEq

/-- The all-empty enrichment, `EnrichmentData()` in the source. -/
def EnrichmentData.empty : EnrichmentData := ⟨none, none⟩

/-- `CombinedResult` (src/main.py, lines 34–37). -/
structure CombinedResult where
  item : SMKItem
  enrichment : EnrichmentData
  relevance : ℚ

/-- The fixed synonym table of `get_search_query` (src/main.py, lines 45–50). -/
def synonyms : List (String × List String) :=
  [("landskab", ["landskab", "natur", "udsigt", "panorama"]),
   ("portræt", ["portræt", "ansigt", "buste", "person"]),
   ("abstrakt", ["abstrakt", "nonfigurativ", "formløs"]),
   ("blomst", ["blomst", "plante", "flora", "rose", "tulipan", "lilje"])]

/-- The value held by `expanded_query` at the end of the loop of
`get_search_query` (src/main.py, lines 51–55): the lowercased query,
overwritten by the OR-join of the synonyms of the first table key that is
a substring of it. -/
def expandedQueryOf (table : List (String × List String)) (query : String) :
    String :=
  let ql := pyLower query
  match table.find? (fun p => pyIn p.1 ql) with
  | some p => String.intercalate " OR " p.2
  | none => ql

/-- `get_search_query` (src/main.py, lines 40–57), parameterized by the
synonym table: the expansion is computed and then discarded, the original
query is returned. -/
def get_search_query (table : List (String × List String)) (query : String) :
    String :=
  let _expanded_query := expandedQueryOf table query
  query

/-- Outcome of the HTTP interaction of `fetch_enrichment_data` for one id:
a successfully parsed payload, a transport/non-2xx failure
(`requests.exceptions.RequestException`), or a payload the model fails to
validate (any other exception). -/
inductive FetchOutcome where
  | success : EnrichmentData → FetchOutcome
  | requestError : String → FetchOutcome
  | malformed : String → FetchOutcome

/-- The `try` body of `fetch_enrichment_data` (src/main.py, lines 102–106):
produces the parsed enrichment or raises. -/
def tryFetchEnrichment : FetchOutcome → Except String EnrichmentData
  | .success d => .ok d
  | .requestError e => .error e
  | .malformed e => .error e

/-- `fetch_enrichment_data` (src/main.py, lines 91–112): every raised error
is caught and converted to the empty `EnrichmentData`. -/
def fetch_enrichment_data (o : FetchOutcome) : EnrichmentData :=
  match tryFetchEnrichment o with
  | .ok d => d
  | .error _ => EnrichmentData.empty

/-- The title loop of `calculate_relevance` (src/main.py, lines 128–131):
adds 0.5 for the first lowercased title containing the lowercased query,
then breaks. -/
def titleLoop (ql : String) : List String → ℚ
  | [] => 0
  | t :: ts => if pyIn ql (pyLower t) then 1/2 else titleLoop ql ts

/-- The enrichment-description loop of `calculate_relevance`
(src/main.py, lines 141–144): adds 0.2 for the first entry containing the
lowercased query, then breaks. -/
def descLoop (ql : String) : List String → ℚ
  | [] => 0
  | d :: ds => if pyIn ql (pyLower d) then 1/5 else descLoop ql ds

/-- The enrichment contribution of `calculate_relevance`
(src/main.py, lines 138–144): the check `if enrichment:` is always true
(a pydantic model is truthy) and `hasattr` always holds, so the guard is
the Python truthiness of the description attribute: not `None` and not
the empty list. -/
def enrichScore (ql : String) (e : EnrichmentData) : ℚ :=
  match e.desc_attr with
  | some descs => if descs.isEmpty then 0 else descLoop ql descs
  | none => 0

/-- `calculate_relevance` (src/main.py, lines 114–145).  Note the
description branch requires `item.description` to be Python-truthy:
present and non-empty. -/
def calculate_relevance (item : SMKItem) (enrichment : EnrichmentData)
    (query : String) : ℚ :=
  let query_lower := pyLower query
  let s1 := titleLoop query_lower item.titles
  let s2 := s1 + (if pyIn query_lower (pyLower item.creator) then 3/10 else 0)
  let s3 := s2 + (match item.description with
    | some d => if !d.isEmpty && pyIn query_lower (pyLower d) then 1/5 else 0
    | none => 0)
  let s4 := s3 + enrichScore query_lower enrichment
  min 1 s4

/-- `find_related_works` (src/main.py, lines 175–185): a stub that always
returns the empty list. -/
def find_related_works (_object_number : String) : List CombinedResult := []

/-- The expansion trigger of `filter_and_expand_results`
(src/main.py, lines 163–172): the description attribute is truthy and
some entry lowercased contains the lowercased query. -/
def expandTrigger (e : EnrichmentData) (query : String) : Bool :=
  match e.desc_attr with
  | some descs =>
      !descs.isEmpty && descs.any (fun d => pyIn (pyLower query) (pyLower d))
  | none => false

/-- `filter_and_expand_results` (src/main.py, lines 147–173): every result
is appended unchanged; when the trigger fires, the related works for its
object number are appended after it when non-empty. -/
def filter_and_expand_results (results : List CombinedResult)
    (query : String) : List CombinedResult :=
  match results with
  | [] => []
  | r :: rs =>
    let expansion :=
      if expandTrigger r.enrichment query then
        let related := find_related_works r.item.object_number
        if related.isEmpty then [] else related
      else []
    r :: expansion ++ filter_and_expand_results rs query

/-- The fuzzy-matching loop of `search_smk` (src/main.py, lines 201–205):
for each item in order, the best ratio of the query against its titles is
computed and the item kept when that ratio is at least 80.  When an item
has no titles, `extractOne` returns `None` and the subscript
`best_match[1]` raises, aborting the whole loop: modelled by `none`. -/
def fuzzyKeep (query : String) : List SMKItem → Option (List SMKItem)
  | [] => some []
  | it :: its =>
    match bestRatio query it.titles with
    | none => none
    | some s =>
      (fuzzyKeep query its).map
        (fun rest => if (80 : ℚ) ≤ s then it :: rest else rest)

/-- The fuzzy-filter stage of `search_smk` (src/main.py, lines 200–207):
the kept items, overridden by the whole input when no item reached the
threshold. -/
def fuzzyStage (items : List SMKItem) (query : String) :
    Option (List SMKItem) :=
  (fuzzyKeep query items).map
    (fun kept => if kept.isEmpty then items else kept)

/-- The scoring loop of `search_smk` (src/main.py, lines 208–213): for each
surviving item, its enrichment is fetched and a `CombinedResult` built. -/
def scoreStage (kept : List SMKItem) (enrich : String → EnrichmentData)
    (query : String) : List CombinedResult :=
  kept.map (fun it =>
    let e := enrich it.object_number
    ⟨it, e, calculate_relevance it e query⟩)

/-- Stable insertion of a result into a descending-by-relevance list: the
inserted element goes before every element of equal or smaller relevance
(it stems from an earlier position of the input). -/
def insertDesc (x : CombinedResult) : List CombinedResult → List CombinedResult
  | [] => [x]
  | y :: ys =>
      if y.relevance ≤ x.relevance then x :: y :: ys else y :: insertDesc x ys

/-- `results.sort(key=lambda x: x.relevance, reverse=True)`
(src/main.py, line 214): Python sorts are stable, and `reverse=True` keeps
equal elements in their original order, so the result is the unique stable
descending sort, realized here as a stable insertion sort. -/
def sortResults : List CombinedResult → List CombinedResult
  | [] => []
  | x :: xs => insertDesc x (sortResults xs)

/-- `search_smk` (src/main.py, lines 187–224), from the catalog response
on: fuzzy filter, then enrichment fetch and scoring, then the stable
descending sort, then expansion.  A `TypeError` in the fuzzy loop is
caught by the blanket handler and surfaced as an HTTP 500. -/
def search_smk (items : List SMKItem) (enrich : String → EnrichmentData)
    (query : String) : Except Nat (List CombinedResult) :=
  match fuzzyStage items query with
  | none => .error 500
  | some kept =>
      let results := scoreStage kept enrich query
      let sorted := sortResults results
      .ok (filter_and_expand_results sorted query)

/-- The relevance formula exactly as the specification words it: the
description contribution only asks that the description be present
(`some _`), not that it be non-empty. -/
def relevance_claimed (item : SMKItem) (e : EnrichmentData) (q : String) : ℚ :=
  min 1
    ((if item.titles.any (fun t => pyIn (pyLower q) (pyLower t)) then 1/2 else 0)
      + (if pyIn (pyLower q) (pyLower item.creator) then 3/10 else 0)
      + (if (match item.description with
             | some d => pyIn (pyLower q) (pyLower d)
             | none => false) then 1/5 else 0)
      + (if (match e.desc_attr with
             | some ds =>
                 !ds.isEmpty && ds.any (fun d => pyIn (pyLower q) (pyLower d))
             | none => false) then 1/5 else 0))

/-- The relevance formula with the description contribution conditioned on
the description being present and non-empty, matching the Python
truthiness test of the source. -/
def relevance_amended (item : SMKItem) (e : EnrichmentData) (q : String) : ℚ :=
  min 1
    ((if item.titles.any (fun t => pyIn (pyLower q) (pyLower t)) then 1/2 else 0)
      + (if pyIn (pyLower q) (pyLower item.creator) then 3/10 else 0)
      + (if (match item.description with
             | some d => !d.isEmpty && pyIn (pyLower q) (pyLower d)
             | none => false) then 1/5 else 0)
      + (if (match e.desc_attr with
             | some ds =>
                 !ds.isEmpty && ds.any (fun d => pyIn (pyLower q) (pyLower d))
             | none => false) then 1/5 else 0))

/-- The items whose best title ratio reaches the 80 threshold, exactly as
the specification describes the retained set of the fuzzy filter. -/
def thresholdKept (items : List SMKItem) (query : String) : List SMKItem :=
  items.filter (fun it =>
    match bestRatio query it.titles with
    | some s => decide ((80 : ℚ) ≤ s)
    | none => false)

/-- Concrete item of the scenario in §8 of the spec. -/
def redRose : SMKItem := ⟨"KMS1", ["Red Rose"], "Anon", none, none⟩

/-- Enrichment provider that yields the empty enrichment for every id. -/
def noEnrich : String → EnrichmentData := fun _ => EnrichmentData.empty

/-- Item whose title list is empty (the data model allows it). -/
def noTitles : SMKItem := ⟨"X1", [], "NN", none, none⟩

/-- Item exhibiting the description-truthiness corner: empty title list,
empty creator, description present but equal to the empty string. -/
def emptyDescrItem : SMKItem := ⟨"X2", [], "", none, some ""⟩

section Lemmas

lemma titleLoop_eq_any (ql : String) (ts : List String) :
    titleLoop ql ts =
      if ts.any (fun t => pyIn ql (pyLower t)) then 1/2 else 0 := by
  induction ts with
  | nil => simp [titleLoop]
  | cons t ts ih =>
      by_cases h : pyIn ql (pyLower t) <;> simp [titleLoop, h, ih]

lemma descLoop_eq_any (ql : String) (ds : List String) :
    descLoop ql ds =
      if ds.any (fun d => pyIn ql (pyLower d)) then 1/5 else 0 := by
  induction ds with
  | nil => simp [descLoop]
  | cons d ds ih =>
      by_cases h : pyIn ql (pyLower d) <;> simp [descLoop, h, ih]

lemma enrichScore_eq_any (ql : String) (e : EnrichmentData) :
    enrichScore ql e =
      if (match e.desc_attr with
          | some ds => !ds.isEmpty && ds.any (fun d => pyIn ql (pyLower d))
          | none => false) then 1/5 else 0 := by
  match h : e.desc_attr with
  | none => simp [enrichScore, h]
  | some ds =>
      match ds with
      | [] => simp [enrichScore, h]
      | d :: ds => simp [enrichScore, h, descLoop_eq_any]

lemma titleLoop_nonneg (ql : String) (ts : List String) :
    0 ≤ titleLoop ql ts := by
  induction ts with
  | nil => simp [titleLoop]
  | cons t ts ih =>
      by_cases h : pyIn ql (pyLower t) <;> simp [titleLoop, h, ih]

lemma enrichScore_nonneg (ql : String) (e : EnrichmentData) :
    0 ≤ enrichScore ql e := by
  rw [enrichScore_eq_any]
  split <;> norm_num

lemma calculate_relevance_nonneg (item : SMKItem) (e : EnrichmentData)
    (q : String) : 0 ≤ calculate_relevance item e q := by
  unfold calculate_relevance
  apply le_min (by norm_num)
  have h1 := titleLoop_nonneg (pyLower q) item.titles
  have h2 := enrichScore_nonneg (pyLower q) e
  have h3 : (0 : ℚ) ≤
      (if pyIn (pyLower q) (pyLower item.creator) then 3/10 else 0) := by
    split <;> norm_num
  have h4 : (0 : ℚ) ≤ (match item.description with
      | some d =>
          if !d.isEmpty && pyIn (pyLower q) (pyLower d) then 1/5 else 0
      | none => 0) := by
    rcases item.description with _ | d
    · norm_num
    · simp only
      split <;> norm_num
  exact add_nonneg (add_nonneg (add_nonneg h1 h3) h4) h2

lemma calculate_relevance_le_one (item : SMKItem) (e : EnrichmentData)
    (q : String) : calculate_relevance item e q ≤ 1 := by
  unfold calculate_relevance
  exact min_le_left _ _

lemma filter_and_expand_eq_self (l : List CombinedResult) (q : String) :
    filter_and_expand_results l q = l := by
  induction l with
  | nil => rfl
  | cons r rs ih =>
      simp [filter_and_expand_results, find_related_works, ih]

end Lemmas

/-- C1: the relevance score is min(1, s) with s the sum of the four
independent case-insensitive contributions, with the description
contribution conditioned on the description being PRESENT AND NON-EMPTY
(the Python truthiness test of the source), not merely present as the
claim words it. -/
theorem calculate_relevance_formula (item : SMKItem) (e : EnrichmentData)
    (q : String) :
    calculate_relevance item e q = relevance_amended item e q := by
  simp only [calculate_relevance, relevance_amended, titleLoop_eq_any,
    enrichScore_eq_any]
  rcases item.description with _ | d <;> simp

/-- C1 counterexample: for the query given by the empty string and an item
whose description is present but empty, the code scores 3/10 (creator
match only) while the formula of the claim, whose description
contribution asks only for presence, yields 1/2. -/
theorem relevance_descr_truthiness_cex :
    calculate_relevance emptyDescrItem EnrichmentData.empty "" = 3/10 ∧
      relevance_claimed emptyDescrItem EnrichmentData.empty "" = 1/2 ∧
      calculate_relevance emptyDescrItem EnrichmentData.empty "" ≠
        relevance_claimed emptyDescrItem EnrichmentData.empty "" := by
  have h1 : calculate_relevance emptyDescrItem EnrichmentData.empty "" =
      3/10 := by
    simp [calculate_relevance, emptyDescrItem, EnrichmentData.empty,
      titleLoop, enrichScore,
      show pyIn (pyLower "") (pyLower "") = true from by decide,
      show ("" : String).isEmpty = true from by decide]
    norm_num [min_def]
  have h2 : relevance_claimed emptyDescrItem EnrichmentData.empty "" =
      1/2 := by
    simp [relevance_claimed, emptyDescrItem, EnrichmentData.empty,
      show pyIn (pyLower "") (pyLower "") = true from by decide]
    norm_num [min_def]
  exact ⟨h1, h2, by rw [h1, h2]; norm_num⟩

/-- C4: whenever the body of fetch_enrichment_data raises (transport
failure, non-success status, or malformed payload), the caller receives
the all-empty EnrichmentData value; no error propagates. -/
theorem fetch_enrichment_absorbs_failures (o : FetchOutcome) (msg : String)
    (h : tryFetchEnrichment o = .error msg) :
    fetch_enrichment_data o = EnrichmentData.empty := by
  unfold fetch_enrichment_data
  rw [h]

/-- C4 witness: a concrete transport failure yields the empty enrichment. -/
theorem fetch_enrichment_absorbs_failures_witness :
    fetch_enrichment_data (.requestError "timeout") = EnrichmentData.empty :=
  fetch_enrichment_absorbs_failures (.requestError "timeout") "timeout" rfl

/-- C6: related-item discovery is a stub returning the empty list, and
consequently the expansion stage returns its input list unchanged for
every results list and query. -/
theorem expansion_is_identity :
    (∀ object_number : String, find_related_works object_number = []) ∧
      ∀ (l : List CombinedResult) (q : String),
        filter_and_expand_results l q = l :=
  ⟨fun _ => rfl, filter_and_expand_eq_self⟩

/-- C7: the query normalizer returns its input unchanged, for every
synonym table and every query; the computed OR-expansion is discarded. -/
theorem get_search_query_id (table : List (String × List String))
    (query : String) : get_search_query table query = query := rfl

/-- C10: the relevance score and the expansion trigger read the
enrichment only through its description attribute: two enrichments
agreeing there (so differing at most in the artist-name attribute)
produce the same score and the same trigger outcome. -/
theorem enrichment_only_desc_attr_matters (item : SMKItem) (q : String)
    (e1 e2 : EnrichmentData) (h : e1.desc_attr = e2.desc_attr) :
    calculate_relevance item e1 q = calculate_relevance item e2 q ∧
      expandTrigger e1 q = expandTrigger e2 q := by
  constructor
  · unfold calculate_relevance enrichScore
    rw [h]
  · unfold expandTrigger
    rw [h]

/-- C10 witness: two concrete enrichments differing only in the
artist-name attribute get identical score and trigger. -/
theorem enrichment_only_desc_attr_matters_witness :
    calculate_relevance redRose ⟨some ["x"], some ["a rose here"]⟩ "rose" =
        calculate_relevance redRose ⟨none, some ["a rose here"]⟩ "rose" ∧
      expandTrigger ⟨some ["x"], some ["a rose here"]⟩ "rose" =
        expandTrigger ⟨none, some ["a rose here"]⟩ "rose" :=
  enrichment_only_desc_attr_matters redRose "rose"
    ⟨some ["x"], some ["a rose here"]⟩ ⟨none, some ["a rose here"]⟩ rfl

section SortLemmas

lemma mem_insertDesc {x z : CombinedResult} {l : List CombinedResult} :
    z ∈ insertDesc x l ↔ z = x ∨ z ∈ l := by
  induction l with
  | nil => simp [insertDesc]
  | cons y ys ih =>
      by_cases h : y.relevance ≤ x.relevance
      · simp [insertDesc, h]
      · simp only [insertDesc, if_neg h, List.mem_cons, ih]
        tauto

lemma insertDesc_pairwise {x : CombinedResult} {l : List CombinedResult}
    (h : l.Pairwise (fun a b => b.relevance ≤ a.relevance)) :
    (insertDesc x l).Pairwise (fun a b => b.relevance ≤ a.relevance) := by
  induction l with
  | nil => simp [insertDesc]
  | cons y ys ih =>
      rcases List.pairwise_cons.mp h with ⟨hy, hys⟩
      by_cases hc : y.relevance ≤ x.relevance
      · rw [insertDesc, if_pos hc]
        refine List.Pairwise.cons ?_ h
        intro z hz
        rcases List.mem_cons.mp hz with rfl | hz'
        · exact hc
        · exact le_trans (hy z hz') hc
      · rw [insertDesc, if_neg hc]
        refine List.Pairwise.cons ?_ (ih hys)
        intro z hz
        rcases mem_insertDesc.mp hz with rfl | hz'
        · exact le_of_not_le hc
        · exact hy z hz'

lemma sortResults_pairwise (l : List CombinedResult) :
    (sortResults l).Pairwise (fun a b => b.relevance ≤ a.relevance) := by
  induction l with
  | nil => simp [sortResults]
  | cons x xs ih => exact insertDesc_pairwise ih

lemma mem_sortResults {z : CombinedResult} {l : List CombinedResult}
    (h : z ∈ sortResults l) : z ∈ l := by
  induction l with
  | nil => simp [sortResults] at h
  | cons x xs ih =>
      rcases mem_insertDesc.mp h with rfl | h'
      · exact List.mem_cons_self _ _
      · exact List.mem_cons_of_mem _ (ih h')

lemma filter_insertDesc (x : CombinedResult) (l : List CombinedResult)
    (r : ℚ) :
    (insertDesc x l).filter (fun z => decide (z.relevance = r)) =
      if x.relevance = r then
        x :: l.filter (fun z => decide (z.relevance = r))
      else l.filter (fun z => decide (z.relevance = r)) := by
  induction l with
  | nil =>
      by_cases h : x.relevance = r <;> simp [insertDesc, h]
  | cons y ys ih =>
      by_cases hc : y.relevance ≤ x.relevance
      · rw [insertDesc, if_pos hc]
        by_cases hx : x.relevance = r <;>
          by_cases hy : y.relevance = r <;>
            simp [List.filter_cons, hx, hy]
      · rw [insertDesc, if_neg hc]
        by_cases hx : x.relevance = r
        · have hy : ¬ y.relevance = r := by
            intro hy
            exact hc (le_of_eq (hx ▸ hy))
          simp [List.filter_cons, hx, hy, ih]
        · by_cases hy : y.relevance = r <;>
            simp [List.filter_cons, hx, hy, ih]

lemma sortResults_filter (l : List CombinedResult) (r : ℚ) :
    (sortResults l).filter (fun z => decide (z.relevance = r)) =
      l.filter (fun z => decide (z.relevance = r)) := by
  induction l with
  | nil => rfl
  | cons x xs ih =>
      rw [sortResults, filter_insertDesc, ih]
      by_cases hx : x.relevance = r <;> simp [List.filter_cons, hx]

end SortLemmas

/-- C5: the pre-expansion sequence produced by the sort is descending in
relevance at every adjacent pair, and for every relevance value the
results carrying it appear in the same relative order as in the list fed
into the sort (the scored candidate sequence): a stable descending sort. -/
theorem sortResults_desc_stable (l : List CombinedResult) :
    List.Chain' (fun a b => b.relevance ≤ a.relevance) (sortResults l) ∧
      ∀ r : ℚ,
        (sortResults l).filter (fun z => decide (z.relevance = r)) =
          l.filter (fun z => decide (z.relevance = r)) :=
  ⟨(sortResults_pairwise l).chain', fun r => sortResults_filter l r⟩

section FuzzyLemmas

lemma bestRatio_isSome (q : String) {ts : List String} (h : ts ≠ []) :
    ∃ s, bestRatio q ts = some s := by
  cases ts with
  | nil => exact absurd rfl h
  | cons t ts => exact ⟨_, rfl⟩

lemma fuzzyKeep_eq_thresholdKept (q : String) (items : List SMKItem)
    (h : ∀ it ∈ items, it.titles ≠ []) :
    fuzzyKeep q items = some (thresholdKept items q) := by
  induction items with
  | nil => rfl
  | cons it its ih =>
      obtain ⟨s, hs⟩ := bestRatio_isSome q (h it (List.mem_cons_self _ _))
      have ih' := ih (fun x hx => h x (List.mem_cons_of_mem _ hx))
      by_cases h80 : (80 : ℚ) ≤ s <;>
        simp [fuzzyKeep, hs, ih', thresholdKept, List.filter_cons, h80]

lemma fuzzyKeep_none (q : String) (items : List SMKItem)
    (h : ∃ it ∈ items, it.titles = []) : fuzzyKeep q items = none := by
  induction items with
  | nil => simp at h
  | cons it its ih =>
      rcases h with ⟨x, hx, hxt⟩
      rcases List.mem_cons.mp hx with rfl | hmem
      · simp [fuzzyKeep, hxt, bestRatio]
      · cases hbr : bestRatio q it.titles with
        | none => simp [fuzzyKeep, hbr]
        | some s => simp [fuzzyKeep, hbr, ih ⟨x, hmem, hxt⟩]

end FuzzyLemmas

/-- C3 (amended): when every input item has at least one title, the fuzzy
filter returns the items whose best title ratio is at least 80, overridden
by the whole input when that retained set is empty, and its output is
never empty when its input is non-empty.  (As literally stated the claim
fails: an item with an empty title list makes the stage error out, see the
counterexample.) -/
theorem fuzzyStage_threshold_or_override (items : List SMKItem) (q : String)
    (h1 : items ≠ []) (h2 : ∀ it ∈ items, it.titles ≠ []) :
    fuzzyStage items q =
        some (if thresholdKept items q = [] then items
              else thresholdKept items q) ∧
      (if thresholdKept items q = [] then items
       else thresholdKept items q) ≠ [] := by
  have hk := fuzzyKeep_eq_thresholdKept q items h2
  constructor
  · simp only [fuzzyStage, hk, Option.map_some']
    congr 1
    by_cases he : thresholdKept items q = [] <;>
      simp [List.isEmpty_iff, he]
  · by_cases he : thresholdKept items q = [] <;> simp [he, h1]

/-- C3 witness: on the singleton catalog of the rose scenario the filter
succeeds and returns a non-empty list. -/
theorem fuzzyStage_threshold_or_override_witness :
    fuzzyStage [redRose] "rose" =
        some (if thresholdKept [redRose] "rose" = [] then [redRose]
              else thresholdKept [redRose] "rose") ∧
      (if thresholdKept [redRose] "rose" = [] then [redRose]
       else thresholdKept [redRose] "rose") ≠ [] :=
  fuzzyStage_threshold_or_override [redRose] "rose" (by simp)
    (by simp [redRose])

/-- C3 counterexample: an item with an empty title list is a catalog item
the claim quantifies over; the retained set is empty there, so the claim
says the whole input comes back, but the stage yields no result sequence
at all (the best-match lookup fails). -/
theorem fuzzyStage_empty_titles_cex :
    fuzzyStage [noTitles] "rose" = none ∧
      fuzzyStage [noTitles] "rose" ≠ some [noTitles] ∧
      ([noTitles] : List SMKItem) ≠ [] := by
  have h0 : fuzzyStage [noTitles] "rose" = none := rfl
  exact ⟨h0, by simp [h0], by simp⟩

/-- C9: whenever some catalog item has an empty title list, the search
aborts with a 500-style internal error instead of returning a result
sequence. -/
theorem empty_titles_aborts_search (items : List SMKItem)
    (enrich : String → EnrichmentData) (q : String)
    (h : ∃ it ∈ items, it.titles = []) :
    search_smk items enrich q = .error 500 := by
  have hn := fuzzyKeep_none q items h
  simp [search_smk, fuzzyStage, hn]

/-- C9 witness: a concrete catalog with one title-less item makes the
search return the 500 error. -/
theorem empty_titles_aborts_search_witness :
    search_smk [noTitles] noEnrich "rose" = .error 500 :=
  empty_titles_aborts_search [noTitles] noEnrich "rose"
    ⟨noTitles, by simp, rfl⟩

section RoseEvaluation

lemma lcs_rose_redRose :
    lcsLen ['r', 'o', 's', 'e'] ['R', 'e', 'd', ' ', 'R', 'o', 's', 'e'] =
      3 := by decide

lemma ratio_rose_redRose : fuzz_ratio "rose" "Red Rose" = 50 := by
  simp [fuzz_ratio, String.length]
  norm_num [lcs_rose_redRose]

lemma bestRatio_redRose : bestRatio "rose" ["Red Rose"] = some 50 := by
  simp [bestRatio, ratio_rose_redRose]

lemma relevance_redRose :
    calculate_relevance ⟨"KMS1", ["Red Rose"], "Anon", none, none⟩
      ⟨none, none⟩ "rose" = 1/2 := by
  simp [calculate_relevance, titleLoop, enrichScore,
    show pyIn (pyLower "rose") (pyLower "Red Rose") = true from by decide,
    show pyIn (pyLower "rose") (pyLower "Anon") = false from by decide]
  norm_num [min_def]

lemma search_redRose_eval :
    search_smk [redRose] noEnrich "rose" =
      .ok [⟨redRose, EnrichmentData.empty, 1/2⟩] := by
  simp [search_smk, fuzzyStage, fuzzyKeep, redRose, bestRatio_redRose,
    show ¬((80 : ℚ) ≤ 50) from by norm_num,
    scoreStage, noEnrich, relevance_redRose, sortResults, insertDesc,
    filter_and_expand_results, expandTrigger, EnrichmentData.empty]

end RoseEvaluation

/-- C2: every relevance in a successfully returned result sequence lies in
the closed interval from 0 to 1. -/
theorem search_smk_relevance_bounds (items : List SMKItem)
    (enrich : String → EnrichmentData) (q : String)
    (rs : List CombinedResult) (h : search_smk items enrich q = .ok rs) :
    ∀ r ∈ rs, 0 ≤ r.relevance ∧ r.relevance ≤ 1 := by
  cases hf : fuzzyStage items q with
  | none => simp [search_smk, hf] at h
  | some kept =>
      simp only [search_smk, hf, filter_and_expand_eq_self,
        Except.ok.injEq] at h
      subst h
      intro r hr
      have hr' := mem_sortResults hr
      simp only [scoreStage, List.mem_map] at hr'
      rcases hr' with ⟨it, hit, rfl⟩
      exact ⟨calculate_relevance_nonneg _ _ _, calculate_relevance_le_one _ _ _⟩

/-- C2 witness: the bound holds for the one result of the concrete rose
search. -/
theorem search_smk_relevance_bounds_witness :
    0 ≤ (⟨redRose, EnrichmentData.empty, 1/2⟩ : CombinedResult).relevance ∧
      (⟨redRose, EnrichmentData.empty, 1/2⟩ : CombinedResult).relevance ≤ 1 :=
  search_smk_relevance_bounds [redRose] noEnrich "rose"
    [⟨redRose, EnrichmentData.empty, 1/2⟩] search_redRose_eval
    ⟨redRose, EnrichmentData.empty, 1/2⟩ (by simp)

/-- C8 (amended): in the rose scenario the fuzzy ratio of the query
against the single title is 50, below the 80 threshold, so the item is
retained only through the empty-retained-set override; its relevance is
one half (title contribution only) and the final response holds exactly
that one result. -/
theorem rose_scenario_amended :
    fuzz_ratio "rose" "Red Rose" < 80 ∧
      fuzzyStage [redRose] "rose" = some [redRose] ∧
      search_smk [redRose] noEnrich "rose" =
        .ok [⟨redRose, EnrichmentData.empty, 1/2⟩] := by
  refine ⟨by rw [ratio_rose_redRose]; norm_num, ?_, search_redRose_eval⟩
  simp [fuzzyStage, fuzzyKeep, redRose, bestRatio_redRose,
    show ¬((80 : ℚ) ≤ 50) from by norm_num]

/-- C8 counterexample: the fuzzy ratio of the query rose against the
title Red Rose is 50, not at least 80 as claimed, and accordingly the
threshold rule retains nothing in that scenario. -/
theorem rose_ratio_below_threshold_cex :
    ¬ (80 : ℚ) ≤ fuzz_ratio "rose" "Red Rose" ∧
      thresholdKept [redRose] "rose" = [] := by
  constructor
  · rw [ratio_rose_redRose]; norm_num
  · simp [thresholdKept, redRose, bestRatio_redRose,
      show ¬((80 : ℚ) ≤ 50) from by norm_num]

end SMK
